import Mathlib

/-!
Verification of the mcgonalds process-supervision core.

Shallow embedding of:
  internal/server/server.go          (process handle: Start/Stop/SendCommand,
                                      readConsole, monitorProcess)
  internal/server_manager/server_manager.go
                                     (registry: CreateServer, DeleteServer,
                                      StartServer, SubscribeOutput,
                                      streamServerOutput, NewServerManager)
  internal/utils/symlink.go          (CreateSymlink)
  internal/model/server.go           (persisted server record)

Goroutine interleavings are modelled by an explicit event list executed over a
handle state; machine integers by Nat with explicit mod; fallible calls by
Except with injected success/failure flags for the external world (database,
OS spawn, filesystem writes).
-/

/-- Error taxonomy of the embedded operations, mirroring the error returns of
the Go source (each constructor corresponds to one `fmt.Errorf` site or to an
error the specification names). -/
inductive Err where
  | alreadyRunning
  | notRunning
  | invalidCommand
  | spawnFailed
  | dbError
  | writeFailed
  | alreadyExists
  | notFound
  | forbidden
  | serverRunning
  | beginFailed
  | createServerFailed
  | createConfigFailed
  | commitFailed
  | mkdirFailed
  | scriptFailed
  | nilDeref
  deriving DecidableEq, Repr

/-- Outcome of one iteration of the `readConsole` select for a single line. -/
inductive ReadOutcome where
  | delivered
  | exited
  | panicked
  | blocked
  deriving DecidableEq, Repr

/-- Accumulating splitter over characters: cut at whitespace, drop empty
pieces. -/
def splitWsAux : List Char → List Char → List (List Char)
  | [], acc => if acc = [] then [] else [acc.reverse]
  | c :: cs, acc =>
    if c.isWhitespace then
      if acc = [] then splitWsAux cs []
      else acc.reverse :: splitWsAux cs []
    else splitWsAux cs (c :: acc)

/-- strings.Fields: split on whitespace, dropping empty pieces
(server.go:64 `strings.Fields(config.ExecutableCommand)`). -/
def goFields (cmd : String) : List String :=
  (splitWsAux cmd.toList []).map (fun cs => String.mk cs)

/-- Capacity of the handle's console channel
(server.go:37 `make(chan string, 100)`). -/
def consoleCap : Nat := 100

/-- State of one process handle (struct Server, server.go:20-31) together
with the observable world around it: how many OS processes it spawned are
still alive, how many have exited but not yet been reaped by the monitor,
how many line-reader goroutines are live, how many interrupt signals were
sent, and what was written to stdin.  `stopOnceUsed`/`doneOnceUsed` embed
the two sync.Once fields; `consoleClosed`/`doneClosed` the closedness of the
two channels; `crashed` records a runtime panic (send on closed channel),
which in Go kills the whole program. -/
structure Handle where
  isRunning : Bool := false
  stopOnceUsed : Bool := false
  doneOnceUsed : Bool := false
  consoleClosed : Bool := false
  doneClosed : Bool := false
  consoleCloseCount : Nat := 0
  doneCloseCount : Nat := 0
  alive : Nat := 0
  pendingWait : Nat := 0
  readers : Nat := 0
  signalsSent : Nat := 0
  generation : Nat := 0
  consoleBuf : List String := []
  stdinWrites : List String := []
  crashed : Bool := false
  deriving DecidableEq, Repr

/-- NewServer (server.go:34-40): fresh handle, open console channel of
capacity 100, open done channel, fresh sync.Once fields. -/
def newServer : Handle := {}

/-- Server.Start (server.go:48-98).  `cfg` is the result of GetConfig
(none = database error), `spawnOk` tells whether cmd.Start() succeeds.
On success: isRunning := true and the two goroutines (reader, monitor) are
launched for a fresh process.  Note that Start resets none of the sync.Once
fields and does not replace the console/done channels. -/
def start (cfg : Option String) (spawnOk : Bool) (h : Handle) : Except Err Handle :=
  if h.isRunning then
    Except.error Err.alreadyRunning
  else
    match cfg with
    | none => Except.error Err.dbError
    | some cmd =>
      if goFields cmd = [] then
        Except.error Err.invalidCommand
      else if spawnOk then
        Except.ok { h with
          isRunning := true
          alive := h.alive + 1
          readers := h.readers + 1
          generation := h.generation + 1 }
      else
        Except.error Err.spawnFailed

/-- Server.Stop (server.go:143-161): fails when not running; otherwise sends
the interrupt signal inside `stopOnce.Do` (so only if the handle-wide Once is
still unused), then sets isRunning := false and returns without waiting for
the process to exit (`alive` unchanged). -/
def stop (h : Handle) : Except Err Handle :=
  if h.isRunning then
    if h.stopOnceUsed then
      Except.ok { h with isRunning := false }
    else
      Except.ok { h with
        isRunning := false
        stopOnceUsed := true
        signalsSent := h.signalsSent + 1 }
  else
    Except.error Err.notRunning

/-- Body of monitorProcess after cmd.Wait() returns (server.go:122-140):
sets isRunning := false and runs `doneOnce.Do(close(done))`. -/
def monitorRun (h : Handle) : Handle :=
  if h.doneOnceUsed then
    { h with isRunning := false }
  else
    { h with
      isRunning := false
      doneOnceUsed := true
      doneClosed := true
      doneCloseCount := h.doneCloseCount + 1 }

/-- Tail of readConsole after the scanner loop ends at stream EOF
(server.go:112-119): runs `doneOnce.Do(close(console))`. -/
def readerEOF (h : Handle) : Handle :=
  if h.doneOnceUsed then
    h
  else
    { h with
      doneOnceUsed := true
      consoleClosed := true
      consoleCloseCount := h.consoleCloseCount + 1 }

/-- One iteration of readConsole's select for one scanned line
(server.go:103-110): `select { case console <- line : ...; case <-done :
return }`.  A send case on a closed channel is ready and panics when chosen;
a receive on the closed done channel is always ready; when both are ready the
scheduler chooses (`pickDone`); when neither is ready the reader blocks. -/
def readLine (line : String) (pickDone : Bool) (h : Handle) :
    ReadOutcome × Handle :=
  if h.consoleClosed then
    if h.doneClosed ∧ pickDone then (ReadOutcome.exited, h)
    else (ReadOutcome.panicked, h)
  else if h.doneClosed ∧ pickDone then (ReadOutcome.exited, h)
  else if h.consoleBuf.length < consoleCap then
    (ReadOutcome.delivered, { h with consoleBuf := h.consoleBuf ++ [line] })
  else if h.doneClosed then (ReadOutcome.exited, h)
  else (ReadOutcome.blocked, h)

/-- Server.SendCommand (server.go:172-185): fails when not running, else
writes command+"\n" to the process stdin (`writeOk` = the io.WriteString
outcome). -/
def sendCommand (writeOk : Bool) (command : String) (h : Handle) :
    Except Err Handle :=
  if h.isRunning then
    if writeOk then
      Except.ok { h with stdinWrites := h.stdinWrites ++ [command ++ "\n"] }
    else
      Except.error Err.writeFailed
  else
    Except.error Err.notRunning

/-- Server.IsRunning (server.go:231-235). -/
def isRunningOp (h : Handle) : Bool := h.isRunning

/-- Events of the handle's concurrent execution.  Each constructor is one
atomic step of the Go code: a Start or Stop call (errors included, they leave
the state unchanged), an OS process dying, the monitor goroutine running its
body after Wait returns, a reader goroutine reaching EOF, a reader handling
one scanned line, or a consumer receiving one line from the console channel. -/
inductive Ev where
  | evStart (cmd : String) (spawnOk : Bool) (cfgOk : Bool)
  | evStop
  | evSend (command : String) (writeOk : Bool)
  | evProcDies
  | evMonitorRun
  | evReaderEOF
  | evReadLine (line : String) (pickDone : Bool)
  | evConsume
  deriving DecidableEq, Repr

/-- Apply one event to a handle state.  `none` marks an event whose
precondition does not hold in this state (no process alive to die, no monitor
pending, no live reader, empty console buffer), or any event after the
program crashed.  A reader may reach EOF only when some live reader's process
has exited (`alive < readers`).  An erroring Start/Stop/SendCommand call is a
real step that leaves the state unchanged. -/
def applyEv (h : Handle) (e : Ev) : Option Handle :=
  if h.crashed then none
  else
    match e with
    | Ev.evStart cmd spawnOk cfgOk =>
      match start (if cfgOk then some cmd else none) spawnOk h with
      | Except.ok h2 => some h2
      | Except.error _ => some h
    | Ev.evStop =>
      match stop h with
      | Except.ok h2 => some h2
      | Except.error _ => some h
    | Ev.evSend command writeOk =>
      match sendCommand writeOk command h with
      | Except.ok h2 => some h2
      | Except.error _ => some h
    | Ev.evProcDies =>
      if h.alive = 0 then none
      else some { h with alive := h.alive - 1, pendingWait := h.pendingWait + 1 }
    | Ev.evMonitorRun =>
      if h.pendingWait = 0 then none
      else some (monitorRun { h with pendingWait := h.pendingWait - 1 })
    | Ev.evReaderEOF =>
      if h.alive < h.readers then
        some (readerEOF { h with readers := h.readers - 1 })
      else none
    | Ev.evReadLine line pickDone =>
      if h.readers = 0 then none
      else
        match readLine line pickDone h with
        | (ReadOutcome.delivered, h2) => some h2
        | (ReadOutcome.exited, h2) => some { h2 with readers := h2.readers - 1 }
        | (ReadOutcome.panicked, h2) => some { h2 with crashed := true }
        | (ReadOutcome.blocked, h2) => some h2
    | Ev.evConsume =>
      match h.consoleBuf with
      | [] => none
      | _ :: rest => some { h with consoleBuf := rest }

/-- Run a list of events from a handle state. -/
def run (h : Handle) : List Ev → Option Handle
  | [] => some h
  | e :: es =>
    match applyEv h e with
    | none => none
    | some h2 => run h2 es

/-- A handle state is reachable when some interleaving of calls and
goroutine steps produces it from a fresh handle. -/
def Reach (h : Handle) : Prop := ∃ es, run newServer es = some h

/-- Association-list lookup, modelling Go map indexing. -/
def lookupA {α β : Type} [DecidableEq α] (k : α) : List (α × β) → Option β
  | [] => none
  | (a, b) :: rest => if a = k then some b else lookupA k rest

/-- Association-list insert/replace, modelling Go map assignment. -/
def insertA {α β : Type} [DecidableEq α] (k : α) (v : β)
    (l : List (α × β)) : List (α × β) :=
  (l.filter (fun p => p.1 ≠ k)) ++ [(k, v)]

/-- Association-list removal, modelling Go `delete(m, k)`. -/
def removeA {α β : Type} [DecidableEq α] (k : α)
    (l : List (α × β)) : List (α × β) :=
  l.filter (fun p => p.1 ≠ k)

/-- Go's uint8 conversion of a database id (`uint8(serverModel.ID)`,
server_manager.go:135,137, :43). -/
def uint8 (n : Nat) : Nat := n % 256

/-- Persisted server record (model.Server, model/server.go:3-12): gorm id,
unique name, filesystem path.  The model carries no owner field. -/
structure ServerRecord where
  id : Nat
  name : String
  path : String
  deriving DecidableEq, Repr

/-- Persisted server configuration (model.ServerConfig): owning server id,
executable command, jar file id, optional mod pack id. -/
structure ConfigRecord where
  serverID : Nat
  executableCommand : String
  jarFileID : Nat
  modPackID : Option Nat
  deriving DecidableEq, Repr

/-- The relational store the manager talks to: persisted servers and configs,
plus gorm's next auto-increment id. -/
structure Database where
  servers : List ServerRecord
  configs : List ConfigRecord
  nextID : Nat
  deriving DecidableEq, Repr

/-- Entries of the provisioned filesystem seen by CreateSymlink. -/
inductive FsEntry where
  | file
  | dir
  | symlink (target : String)
  deriving DecidableEq, Repr

/-- ServerManager (server_manager.go:18-25): database handle, in-memory map
`map[uint8]*server.Server` (keys are the uint8 value of the record id), and
the filesystem it provisions (directories, symlinks as dest ↦ source, script
files as path ↦ content). -/
structure Manager where
  db : Database
  handles : List (Nat × Handle)
  dirs : List String
  symlinks : List (String × FsEntry)
  scripts : List (String × String)
  deriving DecidableEq, Repr

/-- NewServerManager (server_manager.go:27-47): fetches all persisted
servers and populates the map keyed by `uint8(dbServer.ID)`. -/
def newServerManager (db : Database) : Manager :=
  { db := db
    handles := db.servers.foldl (fun hs r => insertA (uint8 r.id) newServer hs) []
    dirs := []
    symlinks := []
    scripts := [] }

/-- filepath.Dir for the slash-separated paths the manager builds: drop the
final path component (the trailing slash with it); "." when there is no
slash. -/
def dirOf (p : String) : String :=
  match (p.toList.reverse.dropWhile (fun c => c ≠ '/')) with
  | [] => "."
  | _ :: rest => String.mk rest.reverse

/-- utils.CreateSymlink (symlink.go:10-33).  MkdirAll on the destination
directory, then: if Lstat(destination) succeeds the code removes the
destination and executes `return err` — with err equal to nil in that branch,
so it returns success without recreating the link; only when the destination
is absent does it create the symlink.  The MkdirAll/Symlink failure branches
call log.Fatalf, which terminates the process before the `return`, so a
returning call never reports those failures. -/
def createSymlink (source destination : String)
    (entries : List (String × FsEntry)) :
    Except Err (List (String × FsEntry)) :=
  let entries1 := insertA (dirOf destination) FsEntry.dir entries
  if (lookupA destination entries1).isSome then
    Except.ok (removeA destination entries1)
  else
    Except.ok (insertA destination (FsEntry.symlink source) entries1)

/-- Which external steps of CreateServer succeed: transaction begin, the two
inserts, commit, MkdirAll of the env directory, and the WriteFile of the
start script.  (The symlink steps never return an error to CreateServer: see
`createSymlink`.) -/
structure CreateEnv where
  beginOk : Bool
  insertServerOk : Bool
  insertConfigOk : Bool
  commitOk : Bool
  mkdirOk : Bool
  scriptOk : Bool
  deriving DecidableEq, Repr

/-- ServerManager.CreateServer (server_manager.go:49-138).  Name-uniqueness
check; transaction inserting the server record and, with the same gorm id,
its config (rollback on either failing, so an error before commit leaves the
database untouched); commit; then — after the commit — MkdirAll of path/env,
the jar and mod-pack symlinks, the start.sh script, and registration of a
fresh handle under `uint8(id)`.  The manager state is returned alongside the
result because post-commit failures leave their database and filesystem
effects behind.  `jarFile`/`modPack` carry (id, path); a nil jarFile would
be dereferenced at the config construction (server_manager.go:84) before the
nil check at :109, modelled as the `nilDeref` abort. -/
def createServer (env : CreateEnv) (m : Manager)
    (name path executableCommand : String)
    (jarFile : Option (Nat × String)) (modPack : Option (Nat × String)) :
    Except Err Nat × Manager :=
  if m.db.servers.any (fun r => r.name = name) then
    (Except.error Err.alreadyExists, m)
  else if env.beginOk = false then
    (Except.error Err.beginFailed, m)
  else
    let newId := m.db.nextID
    if env.insertServerOk = false then
      (Except.error Err.createServerFailed, m)
    else
      match jarFile with
      | none => (Except.error Err.nilDeref, m)
      | some (jarId, jarPath) =>
        if env.insertConfigOk = false then
          (Except.error Err.createConfigFailed, m)
        else if env.commitOk = false then
          (Except.error Err.commitFailed, m)
        else
          let serverModel : ServerRecord := { id := newId, name := name, path := path }
          let serverConfig : ConfigRecord :=
            { serverID := newId
              executableCommand := executableCommand
              jarFileID := jarId
              modPackID := modPack.map (fun p => p.1) }
          let db2 : Database :=
            { servers := m.db.servers ++ [serverModel]
              configs := m.db.configs ++ [serverConfig]
              nextID := m.db.nextID + 1 }
          let m2 := { m with db := db2 }
          let envDir := path ++ "/env"
          if env.mkdirOk = false then
            (Except.error Err.mkdirFailed, m2)
          else
            let m3 := { m2 with dirs := envDir :: m2.dirs }
            let links1 :=
              match createSymlink jarPath (envDir ++ "/server.jar") m3.symlinks with
              | Except.ok l => l
              | Except.error _ => m3.symlinks
            let links2 :=
              match modPack with
              | none => links1
              | some (_, mpPath) =>
                match createSymlink mpPath (envDir ++ "/mods") links1 with
                | Except.ok l => l
                | Except.error _ => links1
            let m4 := { m3 with symlinks := links2 }
            if env.scriptOk = false then
              (Except.error Err.scriptFailed, m4)
            else
              let m5 := { m4 with
                scripts := insertA (envDir ++ "/start.sh")
                  ("#!/bin/bash\n" ++ executableCommand) m4.scripts
                handles := insertA (uint8 newId) newServer m4.handles }
              (Except.ok (uint8 newId), m5)

/-- ServerManager.DeleteServer (server_manager.go:183-193): not-found when
the id has no in-memory handle; otherwise removes the map entry and issues
the database delete for records whose id equals the given uint8 value.  No
running-state check appears anywhere on this path. -/
def deleteServer (m : Manager) (id : Nat) : Except Err Manager :=
  match lookupA id m.handles with
  | none => Except.error Err.notFound
  | some _ =>
    Except.ok { m with
      handles := removeA id m.handles
      db := { m.db with servers := m.db.servers.filter (fun r => r.id ≠ id) } }

/-- ServerManager.StartServer (server_manager.go:195-224): resolve the
handle from the map, lazily loading the record with id equal to the given
uint8 value; verifyRequiredFiles re-fetches the record (its file checks are
commented out); then delegate to the handle's Start with the config command
fetched by `server_id = uint8 id`, and store the updated handle.  The
function receives no caller identity and consults no owner. -/
def startServer (spawnOk : Bool) (m : Manager) (id : Nat) :
    Except Err Manager :=
  let resolved : Option (Handle × Manager) :=
    match lookupA id m.handles with
    | some srv => some (srv, m)
    | none =>
      match m.db.servers.find? (fun r => r.id = id) with
      | none => none
      | some _ =>
        some (newServer, { m with handles := insertA id newServer m.handles })
  match resolved with
  | none => Except.error Err.notFound
  | some (srv, m1) =>
    match m1.db.servers.find? (fun r => r.id = id) with
    | none => Except.error Err.notFound
    | some _ =>
      let cfg := (m1.db.configs.find? (fun c => c.serverID = id)).map
        (fun c => c.executableCommand)
      match start cfg spawnOk srv with
      | Except.error e => Except.error e
      | Except.ok srv2 =>
        Except.ok { m1 with handles := insertA id srv2 m1.handles }

/-- What a caller with identity `callerId` observes when invoking the
registry's Start: the source StartServer takes only the server id, so the
caller's identity never reaches it and the behaviour is `startServer`
unchanged. -/
def startServerAs (callerId : Nat) (spawnOk : Bool) (m : Manager) (id : Nat) :
    Except Err Manager :=
  startServer spawnOk m id

/-- Capacity of one subscriber channel
(server_manager.go:586 `make(chan string, 100)`). -/
def subCap : Nat := 100

/-- The non-blocking send of streamServerOutput (server_manager.go:614-618):
`select { case ch <- line : ; default : }` — deliver when the subscriber's
buffer has space, silently drop otherwise. -/
def trySend (line : String) (buf : List String) : List String :=
  if buf.length < subCap then buf ++ [line] else buf

/-- One iteration of the broadcaster loop for one line
(server_manager.go:608-620): iterate the current subscriber set, attempting
the non-blocking send to each. -/
def broadcastLine (line : String) (subs : List (List String)) :
    List (List String) :=
  subs.map (trySend line)

/-- The whole broadcaster run loop over the lines read from the console
until it closes (server_manager.go:607-621), for a fixed subscriber set. -/
def streamServerOutput (lines : List String) (subs : List (List String)) :
    List (List String) :=
  lines.foldl (fun s l => broadcastLine l s) subs

/-- ServerManager.GetServer (server_manager.go:158-181): in-memory handle if
present, else lazy load of the record with id equal to the given uint8 value. -/
def getServer (m : Manager) (id : Nat) : Except Err (Handle × Manager) :=
  match lookupA id m.handles with
  | some srv => Except.ok (srv, m)
  | none =>
    match m.db.servers.find? (fun r => r.id = id) with
    | none => Except.error Err.notFound
    | some _ =>
      Except.ok (newServer, { m with handles := insertA id newServer m.handles })

/-- ServerManager.StopServer (server_manager.go:226-236): map lookup only
(no lazy load), then delegate to the handle's Stop. -/
def stopServer (m : Manager) (id : Nat) : Except Err Manager :=
  match lookupA id m.handles with
  | none => Except.error Err.notFound
  | some srv =>
    match stop srv with
    | Except.error e => Except.error e
    | Except.ok srv2 => Except.ok { m with handles := insertA id srv2 m.handles }

/-- ServerManager.SendCommand (server_manager.go:250-264): map lookup, then
delegate to the handle's SendCommand; returns "Command executed". -/
def sendCommandSM (writeOk : Bool) (m : Manager) (id : Nat) (command : String) :
    Except Err (String × Manager) :=
  match lookupA id m.handles with
  | none => Except.error Err.notFound
  | some srv =>
    match sendCommand writeOk command srv with
    | Except.error e => Except.error e
    | Except.ok srv2 =>
      Except.ok ("Command executed", { m with handles := insertA id srv2 m.handles })

/-- A successful Start was guarded by `isRunning = false` and only launches a
fresh process, reader and generation — every other field is untouched. -/
theorem start_ok_shape {cfg : Option String} {sp : Bool} {h h2 : Handle}
    (hok : start cfg sp h = Except.ok h2) :
    h.isRunning = false ∧
    h2 = { h with isRunning := true, alive := h.alive + 1,
                  readers := h.readers + 1, generation := h.generation + 1 } := by
  unfold start at hok
  split at hok
  · exact absurd hok (by simp)
  · rename_i hrun
    cases cfg with
    | none => exact absurd hok (by simp)
    | some cmd =>
      simp only at hok
      split at hok
      · exact absurd hok (by simp)
      · split at hok
        · simp only [Except.ok.injEq] at hok
          exact ⟨by simpa using hrun, hok.symm⟩
        · exact absurd hok (by simp)

/-- A successful Stop was guarded by `isRunning = true`, flips the flag,
consumes the handle-wide stopOnce (sending the signal only when it was still
unused), and changes nothing else — in particular it does not wait for or
reap any process. -/
theorem stop_ok_shape {h h2 : Handle} (hok : stop h = Except.ok h2) :
    h.isRunning = true ∧
    h2 = { h with isRunning := false, stopOnceUsed := true,
                  signalsSent := if h.stopOnceUsed then h.signalsSent
                                 else h.signalsSent + 1 } := by
  unfold stop at hok
  split at hok
  · rename_i hrun
    refine ⟨by simpa using hrun, ?_⟩
    split at hok
    · rename_i honce
      simp only [Except.ok.injEq] at hok
      cases h
      simp_all
    · rename_i honce
      simp only [Except.ok.injEq] at hok
      simp_all
  · exact absurd hok (by simp)

/-- A successful SendCommand was guarded by `isRunning = true` and only
appends command+"\n" to the stdin stream. -/
theorem sendCommand_ok_shape {wk : Bool} {c : String} {h h2 : Handle}
    (hok : sendCommand wk c h = Except.ok h2) :
    h.isRunning = true ∧
    h2 = { h with stdinWrites := h.stdinWrites ++ [c ++ "\n"] } := by
  unfold sendCommand at hok
  split at hok
  · rename_i hrun
    split at hok
    · simp only [Except.ok.injEq] at hok
      exact ⟨by simpa using hrun, hok.symm⟩
    · exact absurd hok (by simp)
  · exact absurd hok (by simp)

/-- readLine leaves the state unchanged except possibly appending the line to
the console buffer. -/
theorem readLine_snd_shape (line : String) (pd : Bool) (h : Handle) :
    (readLine line pd h).2 = h ∨
    (readLine line pd h).2 = { h with consoleBuf := h.consoleBuf ++ [line] } := by
  unfold readLine
  split
  · split <;> simp
  · split
    · simp
    · split
      · simp
      · split <;> simp

/-- Invariant: the shared doneOnce admits at most one close over the whole
handle lifetime, split between the console channel and the done channel. -/
def OnceInv (h : Handle) : Prop :=
  (h.doneOnceUsed = false → h.consoleCloseCount = 0 ∧ h.doneCloseCount = 0) ∧
  h.consoleCloseCount + h.doneCloseCount ≤ 1

/-- Invariant: the handle-wide stopOnce admits at most one interrupt signal
over the whole handle lifetime. -/
def SigInv (h : Handle) : Prop :=
  (h.stopOnceUsed = false → h.signalsSent = 0) ∧ h.signalsSent ≤ 1

/-- Invariant of executions without any Stop call: at most one process is
live or awaiting its monitor, and none while the running flag is down. -/
def NSInv (h : Handle) : Prop :=
  h.alive + h.pendingWait ≤ 1 ∧
  (h.isRunning = false → h.alive + h.pendingWait = 0)

/-- Every event preserves `OnceInv`. -/
theorem applyEv_onceInv {h : Handle} {e : Ev} {h2 : Handle}
    (hP : OnceInv h) (happ : applyEv h e = some h2) : OnceInv h2 := by
  obtain ⟨hP1, hP2⟩ := hP
  unfold applyEv at happ
  split at happ
  · exact absurd happ (by simp)
  · cases e with
    | evStart cmd sp cfgOk =>
      dsimp only at happ
      rcases hs : start (if cfgOk then some cmd else none) sp h with e1 | hh
      · rw [hs] at happ
        simp only [Option.some.injEq] at happ
        subst happ
        exact ⟨hP1, hP2⟩
      · rw [hs] at happ
        simp only [Option.some.injEq] at happ
        subst happ
        obtain ⟨-, hsh⟩ := start_ok_shape hs
        subst hsh
        exact ⟨hP1, hP2⟩
    | evStop =>
      dsimp only at happ
      rcases hs : stop h with e1 | hh
      · rw [hs] at happ
        simp only [Option.some.injEq] at happ
        subst happ
        exact ⟨hP1, hP2⟩
      · rw [hs] at happ
        simp only [Option.some.injEq] at happ
        subst happ
        obtain ⟨-, hsh⟩ := stop_ok_shape hs
        subst hsh
        exact ⟨hP1, hP2⟩
    | evSend c wk =>
      dsimp only at happ
      rcases hs : sendCommand wk c h with e1 | hh
      · rw [hs] at happ
        simp only [Option.some.injEq] at happ
        subst happ
        exact ⟨hP1, hP2⟩
      · rw [hs] at happ
        simp only [Option.some.injEq] at happ
        subst happ
        obtain ⟨-, hsh⟩ := sendCommand_ok_shape hs
        subst hsh
        exact ⟨hP1, hP2⟩
    | evProcDies =>
      dsimp only at happ
      split at happ
      · exact absurd happ (by simp)
      · simp only [Option.some.injEq] at happ
        subst happ
        exact ⟨hP1, hP2⟩
    | evMonitorRun =>
      dsimp only at happ
      split at happ
      · exact absurd happ (by simp)
      · simp only [Option.some.injEq] at happ
        subst happ
        unfold monitorRun
        split
        · exact ⟨hP1, hP2⟩
        · rename_i hnu
          have := hP1 (by simpa using hnu)
          exact ⟨by simp_all, by simp_all⟩
    | evReaderEOF =>
      dsimp only at happ
      split at happ
      · simp only [Option.some.injEq] at happ
        subst happ
        unfold readerEOF
        split
        · exact ⟨hP1, hP2⟩
        · rename_i hnu
          have := hP1 (by simpa using hnu)
          exact ⟨by simp_all, by simp_all⟩
      · exact absurd happ (by simp)
    | evReadLine line pd =>
      dsimp only at happ
      split at happ
      · exact absurd happ (by simp)
      · rcases readLine_snd_shape line pd h with hsh | hsh <;>
          rcases hrl : readLine line pd h with ⟨o, hr⟩ <;>
          rw [hrl] at hsh happ <;>
          simp only at hsh <;>
          subst hsh <;>
          cases o <;>
          simp only [Option.some.injEq] at happ <;>
          subst happ <;>
          exact ⟨hP1, hP2⟩
    | evConsume =>
      dsimp only at happ
      rcases hb : h.consoleBuf with _ | ⟨x, rest⟩ <;> rw [hb] at happ
      · exact absurd happ (by simp)
      · simp only [Option.some.injEq] at happ
        subst happ
        exact ⟨hP1, hP2⟩

/-- Every event preserves `SigInv`. -/
theorem applyEv_sigInv {h : Handle} {e : Ev} {h2 : Handle}
    (hP : SigInv h) (happ : applyEv h e = some h2) : SigInv h2 := by
  obtain ⟨hP1, hP2⟩ := hP
  unfold applyEv at happ
  split at happ
  · exact absurd happ (by simp)
  · cases e with
    | evStart cmd sp cfgOk =>
      dsimp only at happ
      rcases hs : start (if cfgOk then some cmd else none) sp h with e1 | hh <;>
        rw [hs] at happ <;> simp only [Option.some.injEq] at happ <;> subst happ
      · exact ⟨hP1, hP2⟩
      · obtain ⟨-, hsh⟩ := start_ok_shape hs
        subst hsh
        exact ⟨hP1, hP2⟩
    | evStop =>
      dsimp only at happ
      rcases hs : stop h with e1 | hh <;>
        rw [hs] at happ <;> simp only [Option.some.injEq] at happ <;> subst happ
      · exact ⟨hP1, hP2⟩
      · obtain ⟨-, hsh⟩ := stop_ok_shape hs
        subst hsh
        refine ⟨by simp, ?_⟩
        rcases ho : h.stopOnceUsed with _ | _
        · have h0 := hP1 ho
          simp only [ho, Bool.false_eq_true, if_false]
          omega
        · simp only [ho, if_true]
          exact hP2
    | evSend c wk =>
      dsimp only at happ
      rcases hs : sendCommand wk c h with e1 | hh <;>
        rw [hs] at happ <;> simp only [Option.some.injEq] at happ <;> subst happ
      · exact ⟨hP1, hP2⟩
      · obtain ⟨-, hsh⟩ := sendCommand_ok_shape hs
        subst hsh
        exact ⟨hP1, hP2⟩
    | evProcDies =>
      dsimp only at happ
      split at happ
      · exact absurd happ (by simp)
      · simp only [Option.some.injEq] at happ
        subst happ
        exact ⟨hP1, hP2⟩
    | evMonitorRun =>
      dsimp only at happ
      split at happ
      · exact absurd happ (by simp)
      · simp only [Option.some.injEq] at happ
        subst happ
        unfold monitorRun
        split <;> exact ⟨hP1, hP2⟩
    | evReaderEOF =>
      dsimp only at happ
      split at happ
      · simp only [Option.some.injEq] at happ
        subst happ
        unfold readerEOF
        split <;> exact ⟨hP1, hP2⟩
      · exact absurd happ (by simp)
    | evReadLine line pd =>
      dsimp only at happ
      split at happ
      · exact absurd happ (by simp)
      · rcases readLine_snd_shape line pd h with hsh | hsh <;>
          rcases hrl : readLine line pd h with ⟨o, hr⟩ <;>
          rw [hrl] at hsh happ <;>
          simp only at hsh <;>
          subst hsh <;>
          cases o <;>
          simp only [Option.some.injEq] at happ <;>
          subst happ <;>
          exact ⟨hP1, hP2⟩
    | evConsume =>
      dsimp only at happ
      rcases hb : h.consoleBuf with _ | ⟨x, rest⟩ <;> rw [hb] at happ
      · exact absurd happ (by simp)
      · simp only [Option.some.injEq] at happ
        subst happ
        exact ⟨hP1, hP2⟩

/-- Every event other than a Stop call preserves `NSInv`. -/
theorem applyEv_nsInv {h : Handle} {e : Ev} {h2 : Handle}
    (hP : NSInv h) (hne : e ≠ Ev.evStop) (happ : applyEv h e = some h2) :
    NSInv h2 := by
  obtain ⟨hP1, hP2⟩ := hP
  unfold applyEv at happ
  split at happ
  · exact absurd happ (by simp)
  · cases e with
    | evStart cmd sp cfgOk =>
      dsimp only at happ
      rcases hs : start (if cfgOk then some cmd else none) sp h with e1 | hh <;>
        rw [hs] at happ <;> simp only [Option.some.injEq] at happ <;> subst happ
      · exact ⟨hP1, hP2⟩
      · obtain ⟨hrun, hsh⟩ := start_ok_shape hs
        subst hsh
        have h0 := hP2 hrun
        constructor
        · simp only
          omega
        · intro hfalse
          simp at hfalse
    | evStop => exact absurd rfl hne
    | evSend c wk =>
      dsimp only at happ
      rcases hs : sendCommand wk c h with e1 | hh <;>
        rw [hs] at happ <;> simp only [Option.some.injEq] at happ <;> subst happ
      · exact ⟨hP1, hP2⟩
      · obtain ⟨-, hsh⟩ := sendCommand_ok_shape hs
        subst hsh
        exact ⟨hP1, hP2⟩
    | evProcDies =>
      dsimp only at happ
      split at happ
      · exact absurd happ (by simp)
      · rename_i halive
        simp only [Option.some.injEq] at happ
        subst happ
        constructor
        · simp only
          omega
        · intro hfalse
          simp only at hfalse ⊢
          have := hP2 hfalse
          omega
    | evMonitorRun =>
      dsimp only at happ
      split at happ
      · exact absurd happ (by simp)
      · rename_i hpw
        simp only [Option.some.injEq] at happ
        subst happ
        unfold monitorRun
        split <;>
          exact ⟨by simp only; omega, fun _ => by simp only; omega⟩
    | evReaderEOF =>
      dsimp only at happ
      split at happ
      · simp only [Option.some.injEq] at happ
        subst happ
        unfold readerEOF
        split
        · exact ⟨hP1, hP2⟩
        · exact ⟨by simp only; omega, fun hf => by
            simp only at hf
            exact hP2 hf⟩
      · exact absurd happ (by simp)
    | evReadLine line pd =>
      dsimp only at happ
      split at happ
      · exact absurd happ (by simp)
      · rcases readLine_snd_shape line pd h with hsh | hsh <;>
          rcases hrl : readLine line pd h with ⟨o, hr⟩ <;>
          rw [hrl] at hsh happ <;>
          simp only at hsh <;>
          subst hsh <;>
          cases o <;>
          simp only [Option.some.injEq] at happ <;>
          subst happ <;>
          exact ⟨hP1, hP2⟩
    | evConsume =>
      dsimp only at happ
      rcases hb : h.consoleBuf with _ | ⟨x, rest⟩ <;> rw [hb] at happ
      · exact absurd happ (by simp)
      · simp only [Option.some.injEq] at happ
        subst happ
        exact ⟨hP1, hP2⟩

/-- A predicate preserved by every event holds after any run. -/
theorem run_preserves {P : Handle → Prop}
    (hstep : ∀ h e h2, P h → applyEv h e = some h2 → P h2) :
    ∀ {es : List Ev} {h h2 : Handle}, P h → run h es = some h2 → P h2 := by
  intro es
  induction es with
  | nil =>
    intro h h2 hP hr
    unfold run at hr
    simp only [Option.some.injEq] at hr
    subst hr
    exact hP
  | cons e es ih =>
    intro h h2 hP hr
    unfold run at hr
    rcases ha : applyEv h e with _ | h1 <;> rw [ha] at hr
    · exact absurd hr (by simp)
    · exact ih (hstep _ _ _ hP ha) hr

/-- A predicate preserved by every event satisfying `Q` holds after any run
of events all satisfying `Q`. -/
theorem run_preserves_cond {P : Handle → Prop} {Q : Ev → Prop}
    (hstep : ∀ h e h2, P h → Q e → applyEv h e = some h2 → P h2) :
    ∀ {es : List Ev} {h h2 : Handle}, P h → (∀ e ∈ es, Q e) →
      run h es = some h2 → P h2 := by
  intro es
  induction es with
  | nil =>
    intro h h2 hP _ hr
    unfold run at hr
    simp only [Option.some.injEq] at hr
    subst hr
    exact hP
  | cons e es ih =>
    intro h h2 hP hQ hr
    unfold run at hr
    rcases ha : applyEv h e with _ | h1 <;> rw [ha] at hr
    · exact absurd hr (by simp)
    · exact ih (hstep _ _ _ hP (hQ e (by simp)) ha)
        (fun x hx => hQ x (by simp [hx])) hr
/-- C1 (amended): a Start issued while the running flag is still up fails
with AlreadyRunning and spawns nothing, and along every interleaving of
Start calls, process exits and goroutine steps that contains no Stop call,
at most one live OS process ever exists for the handle.  (As originally
stated the claim also covered the optimistic-Stop window; there it fails —
see the counterexample.) -/
theorem c1_amended_singleProcess (es : List Ev) (h : Handle)
    (hrun : run newServer es = some h) (hnostop : Ev.evStop ∉ es) :
    h.alive ≤ 1 ∧
    (h.isRunning = true →
      ∀ cfg sp, start cfg sp h = Except.error Err.alreadyRunning) := by
  have hinv : NSInv h := by
    refine run_preserves_cond
      (fun h e h2 hP hQ happ => applyEv_nsInv hP hQ happ) ?_ ?_ hrun
    · exact ⟨by simp [newServer], fun _ => by simp [newServer]⟩
    · exact fun e he heq => hnostop (heq ▸ he)
  refine ⟨by have := hinv.1; omega, ?_⟩
  intro hr cfg sp
  unfold start
  simp [hr]

theorem c1_amended_singleProcess_w :
    run newServer [Ev.evStart "java -jar server.jar" true true] =
      some { isRunning := true, alive := 1, readers := 1, generation := 1 } ∧
    Ev.evStop ∉ [Ev.evStart "java -jar server.jar" true true] ∧
    (({ isRunning := true, alive := 1, readers := 1, generation := 1 } : Handle).alive ≤ 1 ∧
      (({ isRunning := true, alive := 1, readers := 1, generation := 1 } : Handle).isRunning = true →
        ∀ cfg sp, start cfg sp
          { isRunning := true, alive := 1, readers := 1, generation := 1 } =
          Except.error Err.alreadyRunning)) :=
  ⟨rfl, by decide,
    c1_amended_singleProcess [Ev.evStart "java -jar server.jar" true true] _ rfl (by decide)⟩

/-- C1 counterexample: Start, then an optimistic Stop (the process has not
exited — no exit event occurs), then a second Start: the second Start
returns ok, not AlreadyRunning, and afterwards two live OS processes coexist
for the same handle (alive = 2). -/
theorem c1_cex_twoLiveProcesses :
    run newServer [Ev.evStart "java -jar server.jar" true true, Ev.evStop,
        Ev.evStart "java -jar server.jar" true true] =
      some { isRunning := true, stopOnceUsed := true, alive := 2, readers := 2,
             signalsSent := 1, generation := 2 } ∧
    run newServer [Ev.evStart "java -jar server.jar" true true, Ev.evStop] =
      some { isRunning := false, stopOnceUsed := true, alive := 1, readers := 1,
             signalsSent := 1, generation := 1 } ∧
    start (some "java -jar server.jar") true
        { isRunning := false, stopOnceUsed := true, alive := 1, readers := 1,
          signalsSent := 1, generation := 1 } =
      Except.ok { isRunning := true, stopOnceUsed := true, alive := 2, readers := 2,
                  signalsSent := 1, generation := 2 } :=
  ⟨rfl, rfl, rfl⟩

/-- C2 (amended): over the whole lifetime of a handle — all generations and
both racing completion paths together — the console channel is closed at
most once, and never when the monitor's done-signal already fired: the two
paths share the single doneOnce, so they close at most one of the two
channels between them, not one each. -/
theorem c2_amended_closeAtMostOnce (es : List Ev) (h : Handle)
    (hrun : run newServer es = some h) :
    h.consoleCloseCount + h.doneCloseCount ≤ 1 ∧
    (h.doneCloseCount = 1 → h.consoleCloseCount = 0) := by
  have hinv : OnceInv h := by
    refine run_preserves (fun h e h2 hP happ => applyEv_onceInv hP happ) ?_ hrun
    exact ⟨fun _ => by simp [newServer], by simp [newServer]⟩
  exact ⟨hinv.2, fun h1 => by have := hinv.2; omega⟩

theorem c2_amended_closeAtMostOnce_w :
    run newServer [Ev.evStart "x" true true, Ev.evProcDies, Ev.evMonitorRun] =
      some { isRunning := false, doneOnceUsed := true, doneClosed := true,
             doneCloseCount := 1, readers := 1, generation := 1 } ∧
    (({ isRunning := false, doneOnceUsed := true, doneClosed := true,
        doneCloseCount := 1, readers := 1, generation := 1 } : Handle).consoleCloseCount +
      ({ isRunning := false, doneOnceUsed := true, doneClosed := true,
         doneCloseCount := 1, readers := 1, generation := 1 } : Handle).doneCloseCount ≤ 1 ∧
      (({ isRunning := false, doneOnceUsed := true, doneClosed := true,
          doneCloseCount := 1, readers := 1, generation := 1 } : Handle).doneCloseCount = 1 →
        ({ isRunning := false, doneOnceUsed := true, doneClosed := true,
           doneCloseCount := 1, readers := 1, generation := 1 } : Handle).consoleCloseCount = 0)) :=
  ⟨rfl, c2_amended_closeAtMostOnce
    [Ev.evStart "x" true true, Ev.evProcDies, Ev.evMonitorRun] _ rfl⟩

/-- C2 counterexample: the process exits and the monitor wins the shared
doneOnce before the reader reaches EOF; the generation then completes (no
live process, no pending monitor, no live reader) with the console channel
never closed: close count 0, while the done channel got the single close. -/
theorem c2_cex_consoleNeverClosed :
    run newServer [Ev.evStart "x" true true, Ev.evProcDies, Ev.evMonitorRun,
        Ev.evReaderEOF] =
      some { isRunning := false, doneOnceUsed := true, doneClosed := true,
             doneCloseCount := 1, generation := 1 } ∧
    (run newServer [Ev.evStart "x" true true, Ev.evProcDies, Ev.evMonitorRun,
        Ev.evReaderEOF]).map
      (fun h => (h.consoleClosed, h.consoleCloseCount, h.doneCloseCount,
                 h.alive, h.pendingWait, h.readers)) =
      some (false, 0, 1, 0, 0, 0) :=
  ⟨rfl, rfl⟩

/-- C3 (amended): Stop on an inactive handle fails with NotRunning and
changes nothing; Stop on an active handle sets the state to Stopped
immediately and does not wait for the process (every field besides the flag
and the stopOnce bookkeeping is untouched), but the graceful interrupt is
sent at most once per HANDLE LIFETIME, not once per Start generation: it is
sent only while the handle-wide stopOnce is unconsumed, and in every
reachable state at most one signal has ever been sent. -/
theorem c3_amended_stopContract (h : Handle) (hr : Reach h) :
    (h.isRunning = false → stop h = Except.error Err.notRunning) ∧
    (h.isRunning = true → stop h = Except.ok { h with
        isRunning := false
        stopOnceUsed := true
        signalsSent := if h.stopOnceUsed then h.signalsSent
                       else h.signalsSent + 1 }) ∧
    h.signalsSent ≤ 1 := by
  obtain ⟨es, hrun⟩ := hr
  have hinv : SigInv h := by
    refine run_preserves (fun h e h2 hP happ => applyEv_sigInv hP happ) ?_ hrun
    exact ⟨fun _ => by simp [newServer], by simp [newServer]⟩
  refine ⟨?_, ?_, hinv.2⟩
  · intro hnr
    unfold stop
    simp [hnr]
  · intro hr2
    unfold stop
    rcases ho : h.stopOnceUsed with _ | _ <;> cases h <;> simp_all

theorem c3_amended_stopContract_w :
    Reach { isRunning := true, alive := 1, readers := 1, generation := 1 } ∧
    ((({ isRunning := true, alive := 1, readers := 1, generation := 1 } : Handle).isRunning = false →
        stop { isRunning := true, alive := 1, readers := 1, generation := 1 } =
          Except.error Err.notRunning) ∧
      (({ isRunning := true, alive := 1, readers := 1, generation := 1 } : Handle).isRunning = true →
        stop { isRunning := true, alive := 1, readers := 1, generation := 1 } =
          Except.ok { isRunning := false, stopOnceUsed := true, signalsSent := 1,
                      alive := 1, readers := 1, generation := 1 }) ∧
      ({ isRunning := true, alive := 1, readers := 1, generation := 1 } : Handle).signalsSent ≤ 1) :=
  ⟨⟨[Ev.evStart "x" true true], rfl⟩,
    c3_amended_stopContract _ ⟨[Ev.evStart "x" true true], rfl⟩⟩

/-- C3 counterexample: after a full Start/Stop cycle (signal sent, process
exits, monitor and reader finish) a second generation is started; its first
Stop returns ok but sends NO interrupt signal — the total stays at the one
signal sent in generation 1, while the claim requires a fresh signal per
Start generation. -/
theorem c3_cex_secondGenerationStopSendsNoSignal :
    run newServer [Ev.evStart "x" true true, Ev.evStop, Ev.evProcDies,
        Ev.evMonitorRun, Ev.evReaderEOF, Ev.evStart "x" true true] =
      some { isRunning := true, stopOnceUsed := true, doneOnceUsed := true,
             doneClosed := true, doneCloseCount := 1, alive := 1, readers := 1,
             signalsSent := 1, generation := 2 } ∧
    stop { isRunning := true, stopOnceUsed := true, doneOnceUsed := true,
           doneClosed := true, doneCloseCount := 1, alive := 1, readers := 1,
           signalsSent := 1, generation := 2 } =
      Except.ok { isRunning := false, stopOnceUsed := true, doneOnceUsed := true,
                  doneClosed := true, doneCloseCount := 1, alive := 1, readers := 1,
                  signalsSent := 1, generation := 2 } :=
  ⟨rfl, rfl⟩

/-- C4 (amended): a handle is reusable for Start and SendCommand — whenever
the running flag is down, Start with a nonempty command and successful spawn
succeeds, launching a fresh process and a new generation, and SendCommand
then works — but console delivery is NOT restored as in the first cycle:
the first generation consumed the shared once-guard, so a later generation's
reader either panics sending on the closed console channel or can exit via
the closed done channel (see the counterexample). -/
theorem c4_amended_reusableStartSend (h : Handle) (cmd c : String)
    (hcmd : goFields cmd ≠ []) (hstopped : h.isRunning = false) :
    start (some cmd) true h =
      Except.ok { h with isRunning := true, alive := h.alive + 1,
                         readers := h.readers + 1, generation := h.generation + 1 } ∧
    sendCommand true c
        { h with isRunning := true, alive := h.alive + 1,
                 readers := h.readers + 1, generation := h.generation + 1 } =
      Except.ok { h with isRunning := true, alive := h.alive + 1,
                         readers := h.readers + 1, generation := h.generation + 1,
                         stdinWrites := h.stdinWrites ++ [c ++ "\n"] } := by
  constructor
  · unfold start
    simp [hstopped, hcmd]
  · unfold sendCommand
    simp

theorem c4_amended_reusableStartSend_w :
    goFields "java -jar server.jar" ≠ [] ∧
    ({ stopOnceUsed := true, doneOnceUsed := true, doneClosed := true,
       doneCloseCount := 1, signalsSent := 1, generation := 1 } : Handle).isRunning = false ∧
    (start (some "java -jar server.jar") true
        { stopOnceUsed := true, doneOnceUsed := true, doneClosed := true,
          doneCloseCount := 1, signalsSent := 1, generation := 1 } =
      Except.ok { isRunning := true, stopOnceUsed := true, doneOnceUsed := true,
                  doneClosed := true, doneCloseCount := 1, alive := 1, readers := 1,
                  signalsSent := 1, generation := 2 } ∧
    sendCommand true "list"
        { isRunning := true, stopOnceUsed := true, doneOnceUsed := true,
          doneClosed := true, doneCloseCount := 1, alive := 1, readers := 1,
          signalsSent := 1, generation := 2 } =
      Except.ok { isRunning := true, stopOnceUsed := true, doneOnceUsed := true,
                  doneClosed := true, doneCloseCount := 1, alive := 1, readers := 1,
                  signalsSent := 1, generation := 2,
                  stdinWrites := ["list\n"] }) :=
  ⟨by decide, rfl,
    c4_amended_reusableStartSend _ "java -jar server.jar" "list" (by decide) rfl⟩

/-- C4 counterexample: generation 1 delivers a line, Stop is called, the
process exits and the reader's EOF path wins the shared once-guard, closing
the console channel; generation 2 then starts successfully, but its reader
panics on its first line — a send on the closed console channel — crashing
the program: no generation-2 line is ever delivered, so the second cycle
does not restore the first cycle's behaviour. -/
theorem c4_cex_secondGenerationReaderPanics :
    (run newServer [Ev.evStart "x" true true, Ev.evReadLine "l1" false,
        Ev.evStop, Ev.evProcDies, Ev.evReaderEOF, Ev.evMonitorRun,
        Ev.evStart "x" true true, Ev.evReadLine "l2" false]).map
      (fun h => (h.crashed, h.consoleBuf, h.generation, h.consoleClosed)) =
      some (true, ["l1"], 2, true) ∧
    (run newServer [Ev.evStart "x" true true, Ev.evReadLine "l1" false]).map
      (fun h => (h.crashed, h.consoleBuf)) = some (false, ["l1"]) :=
  ⟨rfl, rfl⟩

/-- C5 (amended): Create is atomic between the server record and its config
— after any call, the new id's record is persisted exactly when its config
is (both inserted by the committed transaction, or neither) — and an error
raised before the commit (name taken, begin, either insert, commit) leaves
the manager completely unchanged.  But errors raised AFTER the commit
(directory creation, launch-script write) leave both records persisted:
the original claim fails there (see the counterexample). -/
theorem c5_amended_createAtomicity (env : CreateEnv) (m : Manager)
    (name path cmd : String) (jar : Nat × String) (mp : Option (Nat × String))
    (wfS : ∀ r ∈ m.db.servers, r.id ≠ m.db.nextID)
    (wfC : ∀ c ∈ m.db.configs, c.serverID ≠ m.db.nextID) :
    ((createServer env m name path cmd (some jar) mp).2.db.servers.any
        (fun r => r.id = m.db.nextID) =
      (createServer env m name path cmd (some jar) mp).2.db.configs.any
        (fun c => c.serverID = m.db.nextID)) ∧
    (∀ e, (createServer env m name path cmd (some jar) mp).1 = Except.error e →
      (e = Err.alreadyExists ∨ e = Err.beginFailed ∨ e = Err.createServerFailed ∨
        e = Err.createConfigFailed ∨ e = Err.commitFailed) →
      (createServer env m name path cmd (some jar) mp).2 = m) := by
  have hS : m.db.servers.any (fun r => r.id = m.db.nextID) = false := by
    rw [List.any_eq_false]
    intro r hr
    simpa using wfS r hr
  have hC : m.db.configs.any (fun c => c.serverID = m.db.nextID) = false := by
    rw [List.any_eq_false]
    intro c hc
    simpa using wfC c hc
  obtain ⟨ji, jp⟩ := jar
  obtain ⟨b1, b2, b3, b4, b5, b6⟩ := env
  cases hA : m.db.servers.any (fun r => r.name = name) <;>
    cases b1 <;> cases b2 <;> cases b3 <;> cases b4 <;> cases b5 <;> cases b6 <;>
    refine ⟨by simp [createServer, hA, hS, hC, List.any_append], ?_⟩ <;>
    intro e he hd <;>
    first
      | (simp [createServer, hA]; done)
      | (rcases hd with hx | hx | hx | hx | hx <;>
          rw [hx] at he <;>
          simp [createServer, hA] at he)

/-- Concrete manager for the Create claims: empty database, next id 1. -/
def mC5 : Manager := ⟨⟨[], [], 1⟩, [], [], [], []⟩

theorem c5_amended_createAtomicity_w :
    (∀ r ∈ mC5.db.servers, r.id ≠ mC5.db.nextID) ∧
    (∀ c ∈ mC5.db.configs, c.serverID ≠ mC5.db.nextID) ∧
    (((createServer ⟨true, true, true, true, true, true⟩ mC5 "s1" "/srv/s1"
        "java -jar server.jar" (some (7, "/shared/a.jar")) none).2.db.servers.any
          (fun r => r.id = mC5.db.nextID) =
      (createServer ⟨true, true, true, true, true, true⟩ mC5 "s1" "/srv/s1"
        "java -jar server.jar" (some (7, "/shared/a.jar")) none).2.db.configs.any
          (fun c => c.serverID = mC5.db.nextID)) ∧
      (∀ e, (createServer ⟨true, true, true, true, true, true⟩ mC5 "s1" "/srv/s1"
          "java -jar server.jar" (some (7, "/shared/a.jar")) none).1 =
            Except.error e →
        (e = Err.alreadyExists ∨ e = Err.beginFailed ∨ e = Err.createServerFailed ∨
          e = Err.createConfigFailed ∨ e = Err.commitFailed) →
        (createServer ⟨true, true, true, true, true, true⟩ mC5 "s1" "/srv/s1"
          "java -jar server.jar" (some (7, "/shared/a.jar")) none).2 = mC5)) :=
  ⟨by simp [mC5], by simp [mC5],
    c5_amended_createAtomicity ⟨true, true, true, true, true, true⟩ mC5 "s1"
      "/srv/s1" "java -jar server.jar" (7, "/shared/a.jar") none
      (by simp [mC5]) (by simp [mC5])⟩

/-- C5 counterexample: with the directory-creation step failing, Create
returns an error — yet both the server record and its config remain
persisted, because the transaction was committed before provisioning began. -/
theorem c5_cex_postCommitFailureLeavesRecords :
    (createServer ⟨true, true, true, true, false, true⟩ mC5 "s1" "/srv/s1"
        "java -jar server.jar" (some (7, "/shared/a.jar")) none).1 =
      Except.error Err.mkdirFailed ∧
    (createServer ⟨true, true, true, true, false, true⟩ mC5 "s1" "/srv/s1"
        "java -jar server.jar" (some (7, "/shared/a.jar")) none).2.db.servers =
      [{ id := 1, name := "s1", path := "/srv/s1" }] ∧
    (createServer ⟨true, true, true, true, false, true⟩ mC5 "s1" "/srv/s1"
        "java -jar server.jar" (some (7, "/shared/a.jar")) none).2.db.configs =
      [{ serverID := 1, executableCommand := "java -jar server.jar",
         jarFileID := 7, modPackID := none }] :=
  ⟨rfl, rfl, rfl⟩

/-- C6 (amended): Delete never consults the running flag: its only error is
the not-found one (raised exactly when the id has no in-memory handle, even
for a still-persisted record), and whenever a handle is present — running or
not — it succeeds, removing the handle and the persisted record. -/
theorem c6_amended_deleteWithoutRunningGuard (m : Manager) (id : Nat) :
    (∀ e, deleteServer m id = Except.error e → e = Err.notFound) ∧
    (lookupA id m.handles = none →
      deleteServer m id = Except.error Err.notFound) ∧
    (∀ hdl, lookupA id m.handles = some hdl →
      deleteServer m id = Except.ok { m with
        handles := removeA id m.handles
        db := { m.db with
          servers := m.db.servers.filter (fun r => r.id ≠ id) } }) := by
  rcases hl : lookupA id m.handles with _ | hdl
  · refine ⟨?_, fun _ => ?_, fun hdl2 hsome => ?_⟩
    · intro e he
      unfold deleteServer at he
      rw [hl] at he
      simpa using he.symm
    · unfold deleteServer
      rw [hl]
    · exact absurd hsome (by simp)
  · refine ⟨?_, fun hnone => ?_, fun hdl2 hsome => ?_⟩
    · intro e he
      unfold deleteServer at he
      rw [hl] at he
      exact absurd he (by simp)
    · exact absurd hnone (by simp)
    · unfold deleteServer
      rw [hl]

/-- Concrete manager with a RUNNING handle for server 1. -/
def mC6 : Manager :=
  { db := { servers := [{ id := 1, name := "s1", path := "/srv/s1" }]
            configs := []
            nextID := 2 }
    handles := [(1, { isRunning := true, alive := 1, readers := 1, generation := 1 })]
    dirs := []
    symlinks := []
    scripts := [] }

theorem c6_amended_deleteWithoutRunningGuard_w :
    (∀ e, deleteServer mC6 1 = Except.error e → e = Err.notFound) ∧
    (lookupA 1 mC6.handles = none →
      deleteServer mC6 1 = Except.error Err.notFound) ∧
    (∀ hdl, lookupA 1 mC6.handles = some hdl →
      deleteServer mC6 1 = Except.ok { mC6 with
        handles := removeA 1 mC6.handles
        db := { mC6.db with
          servers := mC6.db.servers.filter (fun r => r.id ≠ 1) } }) :=
  c6_amended_deleteWithoutRunningGuard mC6 1

/-- C6 counterexample: server 1's handle reports running, yet Delete
succeeds — no ServerRunning error exists — and removes both the in-memory
handle and the persisted record. -/
theorem c6_cex_deleteRunningServerSucceeds :
    (lookupA 1 mC6.handles).map Handle.isRunning = some true ∧
    deleteServer mC6 1 =
      Except.ok { db := { servers := [], configs := [], nextID := 2 }
                  handles := []
                  dirs := []
                  symlinks := []
                  scripts := [] } :=
  ⟨rfl, rfl⟩

/-- Every error Start can return: the already-running guard, the config
fetch, the empty command, the spawn — never an ownership error. -/
theorem start_error_cases (cfg : Option String) (sp : Bool) (h : Handle)
    (e : Err) (he : start cfg sp h = Except.error e) :
    e = Err.alreadyRunning ∨ e = Err.dbError ∨ e = Err.invalidCommand ∨
    e = Err.spawnFailed := by
  unfold start at he
  split at he
  · simp only [Except.error.injEq] at he
    exact Or.inl he.symm
  · cases cfg with
    | none =>
      simp only [Except.error.injEq] at he
      exact Or.inr (Or.inl he.symm)
    | some cmd =>
      dsimp only at he
      split at he
      · simp only [Except.error.injEq] at he
        exact Or.inr (Or.inr (Or.inl he.symm))
      · split at he
        · exact absurd he (by simp)
        · simp only [Except.error.injEq] at he
          exact Or.inr (Or.inr (Or.inr he.symm))

/-- C7 (amended): the registry's Start performs no ownership authorization:
it takes only the server id — the caller's identity never reaches it, so any
two callers observe identical behaviour — and its only errors are the
not-found lookup and the handle-level Start errors; no Forbidden error
exists on the path (the persisted server model stores no owner at all). -/
theorem c7_amended_startNoOwnershipCheck (caller1 caller2 id : Nat)
    (sp : Bool) (m : Manager) :
    startServerAs caller1 sp m id = startServerAs caller2 sp m id ∧
    (∀ e, startServerAs caller1 sp m id = Except.error e →
      e = Err.notFound ∨ e = Err.alreadyRunning ∨ e = Err.dbError ∨
      e = Err.invalidCommand ∨ e = Err.spawnFailed) := by
  refine ⟨rfl, ?_⟩
  intro e he
  unfold startServerAs startServer at he
  rcases hl : lookupA id m.handles with _ | srv <;> rw [hl] at he <;> dsimp only at he
  · rcases hf : m.db.servers.find? (fun r => r.id = id) with _ | r <;>
      rw [hf] at he <;> dsimp only at he
    · simp only [Except.error.injEq] at he
      exact Or.inl he.symm
    · rw [hf] at he
      dsimp only at he
      rcases hst : start ((m.db.configs.find? (fun c => c.serverID = id)).map
          (fun c => c.executableCommand)) sp newServer with er | hh <;>
        rw [hst] at he
      · simp only [Except.error.injEq] at he
        subst he
        exact Or.inr (start_error_cases _ _ _ _ hst)
      · exact absurd he (by simp)
  · rcases hf : m.db.servers.find? (fun r => r.id = id) with _ | r <;>
      rw [hf] at he <;> dsimp only at he
    · simp only [Except.error.injEq] at he
      exact Or.inl he.symm
    · rcases hst : start ((m.db.configs.find? (fun c => c.serverID = id)).map
          (fun c => c.executableCommand)) sp srv with er | hh <;>
        rw [hst] at he
      · simp only [Except.error.injEq] at he
        subst he
        exact Or.inr (start_error_cases _ _ _ _ hst)
      · exact absurd he (by simp)

/-- Concrete persisted server 1 (owner concept absent from the model as in
the source), with its config, not yet loaded into the handle map. -/
def m7 : Manager :=
  { db := { servers := [{ id := 1, name := "s1", path := "/srv/s1" }]
            configs := [{ serverID := 1,
                          executableCommand := "java -jar server.jar",
                          jarFileID := 7, modPackID := none }]
            nextID := 2 }
    handles := []
    dirs := []
    symlinks := []
    scripts := [] }

theorem c7_amended_startNoOwnershipCheck_w :
    startServerAs 99 true m7 1 = startServerAs 1 true m7 1 ∧
    (∀ e, startServerAs 99 true m7 1 = Except.error e →
      e = Err.notFound ∨ e = Err.alreadyRunning ∨ e = Err.dbError ∨
      e = Err.invalidCommand ∨ e = Err.spawnFailed) :=
  c7_amended_startNoOwnershipCheck 99 1 1 true m7

/-- C7 counterexample: caller 99 — who by the claim's stipulation is not the
owner of server 1 — invokes the registry's Start; it does not fail with
Forbidden: it succeeds and spawns the process (the stored handle is running
with one live process). -/
theorem c7_cex_strangerStartsServer :
    startServerAs 99 true m7 1 =
      Except.ok { m7 with
        handles := [(1, { isRunning := true, alive := 1, readers := 1,
                          generation := 1 })] } ∧
    (lookupA 1 ({ m7 with
        handles := [(1, { isRunning := true, alive := 1, readers := 1,
                          generation := 1 })] } : Manager).handles).map
      Handle.isRunning = some true :=
  ⟨rfl, rfl⟩

/-- C8: evaluation of CreateSymlink at the failing input.  First call with
an absent destination creates the symlink; the second, retried call finds
the destination present, removes it, and returns success WITHOUT recreating
it — afterwards the destination does not exist at all, so provisioning is
not idempotent (the `return err` with a nil err short-circuits the re-create
the surrounding code intends). -/
theorem c8_bug_secondCallRemovesDestination :
    createSymlink "/shared/a.jar" "/srv/1/env/server.jar" [] =
      Except.ok [("/srv/1/env", FsEntry.dir),
                 ("/srv/1/env/server.jar", FsEntry.symlink "/shared/a.jar")] ∧
    createSymlink "/shared/a.jar" "/srv/1/env/server.jar"
        [("/srv/1/env", FsEntry.dir),
         ("/srv/1/env/server.jar", FsEntry.symlink "/shared/a.jar")] =
      Except.ok [("/srv/1/env", FsEntry.dir)] ∧
    lookupA "/srv/1/env/server.jar" [("/srv/1/env", FsEntry.dir)] =
      (none : Option FsEntry) :=
  ⟨rfl, rfl, rfl⟩

/-- C9: one broadcast round treats every subscriber by its own buffer alone:
the subscriber at any index receives exactly the non-blocking send against
its own buffer — dropped (buffer unchanged) when the buffer holds its full
100 lines, appended when there is space — independent of every other
subscriber, and the round is a total function, so a non-draining subscriber
never blocks the loop or delivery to others. -/
theorem c9_broadcastDropOnFullIndependence (line : String)
    (subs : List (List String)) (i : Nat) (b : List String)
    (hb : subs[i]? = some b) :
    (broadcastLine line subs)[i]? = some (trySend line b) ∧
    (subCap ≤ b.length → (broadcastLine line subs)[i]? = some b) ∧
    (b.length < subCap → (broadcastLine line subs)[i]? = some (b ++ [line])) := by
  have h1 : (broadcastLine line subs)[i]? = some (trySend line b) := by
    unfold broadcastLine
    rw [List.getElem?_map, hb]
    rfl
  refine ⟨h1, ?_, ?_⟩
  · intro hfull
    rw [h1]
    unfold trySend
    rw [if_neg (by omega)]
  · intro hspace
    rw [h1]
    unfold trySend
    rw [if_pos hspace]

theorem c9_broadcastDropOnFullIndependence_w :
    ([List.replicate 100 "x", ([] : List String)][0]? =
      some (List.replicate 100 "x")) ∧
    ((broadcastLine "l" [List.replicate 100 "x", []])[0]? =
        some (trySend "l" (List.replicate 100 "x")) ∧
      (subCap ≤ (List.replicate 100 "x").length →
        (broadcastLine "l" [List.replicate 100 "x", []])[0]? =
          some (List.replicate 100 "x")) ∧
      ((List.replicate 100 "x").length < subCap →
        (broadcastLine "l" [List.replicate 100 "x", []])[0]? =
          some (List.replicate 100 "x" ++ ["l"]))) ∧
    ([List.replicate 100 "x", ([] : List String)][1]? = some []) ∧
    ((broadcastLine "l" [List.replicate 100 "x", []])[1]? =
        some (trySend "l" []) ∧
      (subCap ≤ ([] : List String).length →
        (broadcastLine "l" [List.replicate 100 "x", []])[1]? = some []) ∧
      (([] : List String).length < subCap →
        (broadcastLine "l" [List.replicate 100 "x", []])[1]? = some ["l"])) :=
  ⟨rfl, c9_broadcastDropOnFullIndependence "l" [List.replicate 100 "x", []] 0
      (List.replicate 100 "x") rfl,
    rfl, c9_broadcastDropOnFullIndependence "l" [List.replicate 100 "x", []] 1
      [] rfl⟩

/-- C10: the registry addresses servers only through the uint8 truncation of
the persisted id: congruent ids (mod 256) produce the same map key, the same
entry in the map NewServerManager builds, and identical behaviour of every
id-based operation; CreateServer returns exactly the uint8 truncation of the
id the database assigned. -/
theorem c10_uint8AliasingConfirmed (db : Database) (r1 r2 : ServerRecord)
    (hm1 : r1 ∈ db.servers) (hm2 : r2 ∈ db.servers)
    (hc : r1.id % 256 = r2.id % 256) :
    uint8 r1.id = uint8 r2.id ∧
    lookupA (uint8 r1.id) (newServerManager db).handles =
      lookupA (uint8 r2.id) (newServerManager db).handles ∧
    (∀ m, getServer m (uint8 r1.id) = getServer m (uint8 r2.id)) ∧
    (∀ sp m, startServer sp m (uint8 r1.id) = startServer sp m (uint8 r2.id)) ∧
    (∀ m, stopServer m (uint8 r1.id) = stopServer m (uint8 r2.id)) ∧
    (∀ wk m c, sendCommandSM wk m (uint8 r1.id) c =
      sendCommandSM wk m (uint8 r2.id) c) ∧
    (∀ m, deleteServer m (uint8 r1.id) = deleteServer m (uint8 r2.id)) ∧
    (∀ env m name path cmd jar mp i,
      (createServer env m name path cmd jar mp).1 = Except.ok i →
      i = uint8 m.db.nextID) := by
  have hu : uint8 r1.id = uint8 r2.id := hc
  refine ⟨hu, by rw [hu], fun m => by rw [hu], fun sp m => by rw [hu],
    fun m => by rw [hu], fun wk m c => by rw [hu], fun m => by rw [hu], ?_⟩
  intro env m name path cmd jar mp
  obtain ⟨b1, b2, b3, b4, b5, b6⟩ := env
  rcases jar with _ | ⟨ji, jp⟩ <;>
    (cases hA : m.db.servers.any (fun r => r.name = name) <;>
      cases b1 <;> cases b2 <;> cases b3 <;> cases b4 <;> cases b5 <;> cases b6 <;>
      first
        | (intro i hi; simp [createServer, hA] at hi; done)
        | (intro i hi; simp [createServer, hA] at hi;
           first
             | exact hi
             | exact hi.symm))

/-- Two persisted servers whose database ids (1 and 257) are congruent
modulo 256. -/
def db10 : Database :=
  { servers := [{ id := 1, name := "a", path := "/a" },
                { id := 257, name := "b", path := "/b" }]
    configs := []
    nextID := 258 }

theorem c10_uint8AliasingConfirmed_w :
    ({ id := 1, name := "a", path := "/a" } : ServerRecord) ∈ db10.servers ∧
    ({ id := 257, name := "b", path := "/b" } : ServerRecord) ∈ db10.servers ∧
    1 % 256 = 257 % 256 ∧
    (newServerManager db10).handles = [(1, newServer)] ∧
    uint8 1 = uint8 257 ∧
    lookupA (uint8 1) (newServerManager db10).handles =
      lookupA (uint8 257) (newServerManager db10).handles :=
  ⟨by simp [db10], by simp [db10], by decide, rfl,
    (c10_uint8AliasingConfirmed db10
      { id := 1, name := "a", path := "/a" }
      { id := 257, name := "b", path := "/b" }
      (by simp [db10]) (by simp [db10]) (by decide)).1,
    (c10_uint8AliasingConfirmed db10
      { id := 1, name := "a", path := "/a" }
      { id := 257, name := "b", path := "/b" }
      (by simp [db10]) (by simp [db10]) (by decide)).2.1⟩
